import Mathlib

/-!
Verification of the SPX ATM straddle monitor (`app.py`).

Numeric model: Python floats are modelled as exact rationals (`ℚ`); a
nullable float field is `Option PyF`, where `PyF` distinguishes a numeric
value from `nan` so that the code's `math.isnan` / truthiness tests can be
expressed. Python's built-in `round` is round-half-to-even, modelled by
`roundHalfEven`.
-/

namespace Glantz

/-- A Python float value: either an actual (rational) number or `nan`. -/
inductive PyF where
  | nan : PyF
  | num (q : ℚ) : PyF
deriving DecidableEq, Repr

namespace PyF

/-- Python `x > 0` on a float (`nan > 0` is `False`). -/
def gt0 : PyF → Bool
  | .num q => decide (0 < q)
  | .nan => false

/-- Python truthiness of a float: `0.0` is falsy, every other float
(including `nan`) is truthy. -/
def truthy : PyF → Bool
  | .num q => decide (q ≠ 0)
  | .nan => true

/-- Python float addition (`nan` propagates). -/
def add : PyF → PyF → PyF
  | .num a, .num b => .num (a + b)
  | _, _ => .nan

/-- Python float division by 2 (`nan` propagates). -/
def half : PyF → PyF
  | .num a => .num (a / 2)
  | .nan => .nan

end PyF

/-- Python's built-in `round` to an integer: round half to even
(banker's rounding). -/
def roundHalfEven (q : ℚ) : ℤ :=
  if q - ⌊q⌋ < 1 / 2 then ⌊q⌋
  else if 1 / 2 < q - ⌊q⌋ then ⌊q⌋ + 1
  else if ⌊q⌋ % 2 = 0 then ⌊q⌋ else ⌊q⌋ + 1

/-- `app.py` line 34: `step * round(price / step)`.
(Python raises `ZeroDivisionError` for `step = 0`; the `ℚ` model totalizes
division, so theorems carry a `0 < step` hypothesis.) -/
def get_nearest_strike (price : ℚ) (step : ℚ := 5) : ℚ :=
  step * (roundHalfEven (price / step) : ℚ)

/-! ## Tickers, greeks and the straddle aggregator -/

/-- The model greeks attached to a ticker (`ticker.modelGreeks`); each field
is a nullable float. -/
structure ModelGreeks where
  impliedVol : Option PyF
  gamma : Option PyF
  theta : Option PyF
deriving DecidableEq, Repr

/-- The quote/greek state of one live ticker as read during a tick:
`bid`/`ask` are nullable floats, `modelGreeks` is a nullable object. -/
structure TickerState where
  bid : Option PyF
  ask : Option PyF
  modelGreeks : Option ModelGreeks
deriving DecidableEq, Repr

/-- `app.py` line 106: `val and isinstance(val, float) and not math.isnan(val)
and val > 0`. `None` is falsy, `nan` fails the `isnan` test, `0.0` is falsy,
so the test holds exactly for an actual number `> 0`. -/
def is_valid_price : Option PyF → Bool
  | some (PyF.num q) => decide (0 < q)
  | _ => false

/-- `x if is_valid_price(x) else 0.0` as a single function: the numeric value
when valid, `0.0` otherwise. Used for the leg bids/asks (lines 273-276) and
for the sanitized spot (lines 189-193). -/
def priceOr0 (v : Option PyF) : ℚ :=
  match v with
  | some (PyF.num q) => if 0 < q then q else 0
  | _ => 0


/-- `app.py` lines 81-91: extract `(iv, gamma, theta)` from `modelGreeks`,
substituting `0.0` for a missing object or falsy field. (For each field,
Python's `x if x else 0.0` returns `x` itself unless `x` is `None` or `0.0`,
in both of which cases it returns `0.0`; over `Option PyF` this is exactly
`Option.getD` with default `0`.) -/
def get_greeks (t : TickerState) : PyF × PyF × PyF :=
  match t.modelGreeks with
  | some g =>
      (g.impliedVol.getD (PyF.num 0), g.gamma.getD (PyF.num 0), g.theta.getD (PyF.num 0))
  | Option.none => (PyF.num 0, PyF.num 0, PyF.num 0)

/-- An option contract specification as built on lines 213-228:
`Option(UNDERLYING, expiry, target_strike, right, "SMART", tradingClass=t_class)`. -/
structure Contract where
  symbol : String
  lastTradeDateOrContractMonth : String
  strike : ℚ
  right : String
  exchange : String
  tradingClass : String
deriving DecidableEq, Repr

/-- A live market-data handle returned by `reqMktData`: the contract it was
created for plus the latest ticker state observed during the current tick. -/
structure Ticker where
  contract : Contract
  state : TickerState
deriving DecidableEq, Repr

/-- One value of `tickers_map`: `{"dte_label": ..., "call": ..., "put": ...}`
(lines 251-255). -/
structure TMEntry where
  dte_label : String
  call : Ticker
  put : Ticker
deriving DecidableEq, Repr

/-- Python dict lookup `m[k]` / `k in m` over the insertion-ordered
association list that models `tickers_map`. -/
def lookupMap (m : List (String × TMEntry)) (k : String) : Option TMEntry :=
  match m with
  | [] => Option.none
  | (k', v) :: rest => if k' = k then some v else lookupMap rest k

/-- Python dict assignment `m[k] = v`: replaces in place if the key exists,
otherwise appends in insertion order. -/
def dictInsert (k : String) (v : TMEntry) : List (String × TMEntry) → List (String × TMEntry)
  | [] => [(k, v)]
  | (k', v') :: rest => if k' = k then (k, v) :: rest else (k', v') :: dictInsert k v rest

/-- One per-expiry output row of the aggregator (lines 299-312). -/
structure StraddleRecord where
  dte : String
  expiry : String
  call_bid : ℚ
  call_ask : ℚ
  put_bid : ℚ
  put_ask : ℚ
  straddle_cost : ℚ
  iv : PyF
  gamma : PyF
  theta : PyF
deriving DecidableEq, Repr

/-- Body of the aggregation loop for one expiry that has handles
(`app.py` lines 267-312). -/
def mkStraddle (expiry : String) (d : TMEntry) : StraddleRecord :=
  let c_tick := d.call.state
  let p_tick := d.put.state
  let cb := priceOr0 c_tick.bid
  let ca := priceOr0 c_tick.ask
  let pb := priceOr0 p_tick.bid
  let pa := priceOr0 p_tick.ask
  let cm := if 0 < cb ∧ 0 < ca then (cb + ca) / 2 else 0
  let pm := if 0 < pb ∧ 0 < pa then (pb + pa) / 2 else 0
  let cost := cm + pm
  let cg := get_greeks c_tick
  let pg := get_greeks p_tick
  let straddle_iv :=
    if cg.1.gt0 && pg.1.gt0 then (cg.1.add pg.1).half
    else if cg.1.truthy then cg.1 else pg.1
  let straddle_gamma := cg.2.1.add pg.2.1
  let straddle_theta := cg.2.2.add pg.2.2
  { dte := d.dte_label, expiry := expiry, call_bid := cb, call_ask := ca,
    put_bid := pb, put_ask := pa, straddle_cost := cost, iv := straddle_iv,
    gamma := straddle_gamma, theta := straddle_theta }

/-- The aggregation loop (lines 262-312): one record per tracked expiry that
is present in `tickers_map`; expiries without handles are skipped
(`continue`). -/
def buildStraddles (tmap : List (String × TMEntry)) :
    List (String × String) → List StraddleRecord
  | [] => []
  | (expiry, _) :: rest =>
    match lookupMap tmap expiry with
    | Option.none => buildStraddles tmap rest
    | some d => mkStraddle expiry d :: buildStraddles tmap rest


/-- A ticker state with no quotes and no greeks yet. -/
def tickEmpty : TickerState := ⟨Option.none, Option.none, Option.none⟩

/-- A sample call contract at strike 5005. -/
def cSample : Contract := ⟨"SPX", "20260116", 5005, "C", "SMART", "SPXW"⟩

/-- A sample put contract at strike 5005. -/
def pSample : Contract := ⟨"SPX", "20260116", 5005, "P", "SMART", "SPXW"⟩

/-- An entry whose call leg quotes bid 2 / ask 3 and whose put leg has no
valid quotes. -/
def dCallQuoted : TMEntry :=
  ⟨"0DTE", ⟨cSample, ⟨some (PyF.num 2), some (PyF.num 3), Option.none⟩⟩,
    ⟨pSample, tickEmpty⟩⟩

/-- An entry whose call leg reports implied vol `-1` and whose put leg
reports implied vol `1`. -/
def dIvCex : TMEntry :=
  ⟨"0DTE",
    ⟨cSample, ⟨Option.none, Option.none,
      some ⟨some (PyF.num (-1)), some (PyF.num 0), some (PyF.num 0)⟩⟩⟩,
    ⟨pSample, ⟨Option.none, Option.none,
      some ⟨some (PyF.num 1), some (PyF.num 0), some (PyF.num 0)⟩⟩⟩⟩

/-- An entry with call greeks (iv 1/5, gamma 1/1000, theta -2) and put
greeks (iv 9/50, gamma 3/2500, theta -3). -/
def dGreeks : TMEntry :=
  ⟨"0DTE",
    ⟨cSample, ⟨Option.none, Option.none,
      some ⟨some (PyF.num (1 / 5)), some (PyF.num (1 / 1000)), some (PyF.num (-2))⟩⟩⟩,
    ⟨pSample, ⟨Option.none, Option.none,
      some ⟨some (PyF.num (9 / 50)), some (PyF.num (3 / 2500)), some (PyF.num (-3))⟩⟩⟩⟩


/-! ## The session loop -/

/-- The `data_update` payload assembled each tick (lines 314-320);
`status` and the wall-clock `last_update` timestamp are outside the model. -/
structure Snapshot where
  spot_price : ℚ
  active_strike : ℚ
  straddles : List StraddleRecord
deriving DecidableEq, Repr

/-- The provider/transport calls made during one loop iteration, in
program order. -/
inductive Action where
  | cancelMktData (c : Contract)
  | qualifyContracts (cs : List Contract)
  | reqMktData (c : Contract)
  | emitData (snap : Snapshot)
  | sleep (seconds : ℚ)
deriving DecidableEq, Repr

/-- `app.py` lines 210-229: build a call and a put specification at the
target strike for every tracked expiry, in expiry order. -/
def buildContracts (target_strike : ℚ) : List (String × String) → List Contract
  | [] => []
  | (expiry, t_class) :: rest =>
    Contract.mk "SPX" expiry target_strike "C" "SMART" t_class ::
      Contract.mk "SPX" expiry target_strike "P" "SMART" t_class ::
        buildContracts target_strike rest

/-- `app.py` lines 240-255: walk the qualified contracts two at a time,
subscribe each call/put pair, extend `active_tickers_list` and key
`tickers_map` by the call's expiry date with an `{i}DTE` label. The
contracts list is always built in pairs, so the wildcard (empty or a
dangling odd element, which Python would index-error on) ends the walk. -/
def subscribeLoop (mkt : Contract → TickerState) (dte_index : Nat)
    (atl : List Ticker) (tmap : List (String × TMEntry)) (acts : List Action) :
    List Contract → List Ticker × List (String × TMEntry) × List Action
  | call_c :: put_c :: rest =>
    let c_ticker : Ticker := ⟨call_c, mkt call_c⟩
    let p_ticker : Ticker := ⟨put_c, mkt put_c⟩
    subscribeLoop mkt (dte_index + 1) (atl ++ [c_ticker, p_ticker])
      (dictInsert call_c.lastTradeDateOrContractMonth
        ⟨toString dte_index ++ "DTE", c_ticker, p_ticker⟩ tmap)
      (acts ++ [Action.reqMktData call_c, Action.reqMktData put_c]) rest
  | _ => (atl, tmap, acts)

/-- The loop's mutable state (lines 180-183). -/
structure LoopState where
  current_atm_strike : ℚ
  tickers_map : List (String × TMEntry)
  active_tickers_list : List Ticker
deriving DecidableEq, Repr

/-- State before the first strike is established (lines 181-183). -/
def initState : LoopState := ⟨0, [], []⟩

/-- External observations consumed by one loop iteration: the
`ib.isConnected()` check, the underlying ticker's `last` and `close`,
whether batch qualification succeeds if attempted, the quote state
delivered for each subscribed contract, and whether an unexpected
exception is raised inside the body. -/
structure LoopInput where
  connected : Bool
  last : Option PyF
  closePrice : Option PyF
  qualifyOk : Bool
  mktData : Contract → TickerState
  raiseError : Bool

/-- Outcome of one loop iteration: continue with a new state (having
performed the traced calls), or leave the loop (`isError` is whether the
`except` handler ran and emitted `error` status). -/
inductive StepResult where
  | next (s : LoopState) (trace : List Action)
  | halt (isError : Bool) (trace : List Action)

/-- Lines 189-193: prefer a valid `last`, fall back to `close`, and
sanitize an invalid result to `0.0`. -/
def stepSpot (inp : LoopInput) : ℚ :=
  priceOr0 (if is_valid_price inp.last then inp.last else inp.closePrice)

/-- Line 196: the candidate strike for this iteration (step 5). -/
def stepTarget (inp : LoopInput) : ℚ := get_nearest_strike (stepSpot inp) 5

/-- One iteration of the main loop (lines 187-322). On a strike change with
successful qualification the code does NOT `continue`: it falls through to
the aggregation and emit (lines 261-322) in the same iteration; `continue`
happens only on qualification failure (line 237). -/
def step (expiries_info : List (String × String)) (s : LoopState)
    (inp : LoopInput) : StepResult :=
  if !inp.connected then StepResult.halt false []
  else if inp.raiseError then StepResult.halt true []
  else
    let cur_spot := stepSpot inp
    let target_strike := stepTarget inp
    if target_strike ≠ s.current_atm_strike ∧ 0 < target_strike then
      let cancelActs := s.active_tickers_list.map fun t => Action.cancelMktData t.contract
      let contracts := buildContracts target_strike expiries_info
      if inp.qualifyOk then
        let sub := subscribeLoop inp.mktData 0 [] [] [] contracts
        let snap : Snapshot :=
          ⟨cur_spot, target_strike, buildStraddles sub.2.1 expiries_info⟩
        StepResult.next ⟨target_strike, sub.2.1, sub.1⟩
          (cancelActs ++ [Action.qualifyContracts contracts] ++ sub.2.2 ++
            [Action.sleep 2, Action.emitData snap, Action.sleep 5])
      else
        StepResult.next ⟨s.current_atm_strike, [], []⟩
          (cancelActs ++ [Action.qualifyContracts contracts, Action.sleep 5])
    else
      let snap : Snapshot :=
        ⟨cur_spot, s.current_atm_strike, buildStraddles s.tickers_map expiries_info⟩
      StepResult.next s [Action.emitData snap, Action.sleep 5]

/-- The calls traced by an iteration, whether it continues or halts. -/
def StepResult.trace : StepResult → List Action
  | .next _ tr => tr
  | .halt _ tr => tr

/-- Whether an action is a `data_update` broadcast. -/
def Action.isEmitData : Action → Bool
  | .emitData _ => true
  | _ => false

/-- Whether an action touches the subscription set (cancel, qualify or
subscribe). -/
def Action.isSubscriptionCall : Action → Bool
  | .cancelMktData _ => true
  | .qualifyContracts _ => true
  | .reqMktData _ => true
  | _ => false

/-- Whether the iteration broadcast a snapshot. -/
def StepResult.publishes (r : StepResult) : Bool := r.trace.any Action.isEmitData

/-- Outcome of the pre-loop phase: an `error` status emission followed by
return, or entry into the polling loop. -/
inductive SetupResult where
  | exitWithError (message : String)
  | enterLoop (expiries_info : List (String × String))
deriving DecidableEq, Repr

/-- Outcomes of the external calls made before the main loop. -/
structure SetupEnv where
  portOpen : Bool
  connectOk : Bool
  spotArrives : Bool
  discovered : List (String × String)
deriving DecidableEq, Repr

/-- `collect_market_data` before the main loop (lines 111-183): reachability
probe, connect, wait for a valid spot price within the attempt budget,
expiry discovery. Every failure emits `error` status and returns — the
session is over with no retry. -/
def collect_market_data_setup (env : SetupEnv) : SetupResult :=
  if !env.portOpen then
    SetupResult.exitWithError "Port 7496 is not accepting connections"
  else if !env.connectOk then SetupResult.exitWithError "Connection failed"
  else if !env.spotArrives then
    SetupResult.exitWithError "Timeout waiting for SPX data"
  else if env.discovered.isEmpty then
    SetupResult.exitWithError "Could not find expirations"
  else SetupResult.enterLoop env.discovered

/-- One tracked expiry, for concrete instances. -/
def E1 : List (String × String) := [("20260116", "SPXW")]

/-- Iteration input: spot 5007, connected, qualification succeeds, fresh
tickers still empty. -/
def inpJump : LoopInput :=
  ⟨true, some (PyF.num 5007), Option.none, true, fun _ => tickEmpty, false⟩

/-- Same spot but batch qualification fails. -/
def inpJumpQF : LoopInput :=
  ⟨true, some (PyF.num 5007), Option.none, false, fun _ => tickEmpty, false⟩

/-- A state already at strike 5005 with no handles. -/
def stateAt5005 : LoopState := ⟨5005, [], []⟩


/-! ## Theorems -/

theorem roundHalfEven_sub_abs (q : ℚ) : |(roundHalfEven q : ℚ) - q| ≤ 1 / 2 := by
  have h0 : (⌊q⌋ : ℚ) ≤ q := Int.floor_le q
  have h1 : q < ⌊q⌋ + 1 := Int.lt_floor_add_one q
  unfold roundHalfEven
  split_ifs with ha hb hc <;>
    (rw [abs_le]; push_cast; constructor <;> linarith)

theorem roundHalfEven_intCast (n : ℤ) : roundHalfEven (n : ℚ) = n := by
  unfold roundHalfEven
  rw [Int.floor_intCast]
  norm_num

theorem roundHalfEven_nonpos {q : ℚ} (hq : q ≤ 0) : roundHalfEven q ≤ 0 := by
  have hf : ⌊q⌋ ≤ 0 := Int.floor_nonpos hq
  have h0 : (⌊q⌋ : ℚ) ≤ q := Int.floor_le q
  unfold roundHalfEven
  split_ifs with ha hb hc
  · exact hf
  · have h2 : (⌊q⌋ : ℚ) < -(1 / 2) := by linarith
    have h3 : ⌊q⌋ < 0 := by
      by_contra h
      push_neg at h
      have : (0 : ℚ) ≤ (⌊q⌋ : ℚ) := by exact_mod_cast h
      linarith
    omega
  · exact hf
  · have htie : q - ⌊q⌋ = 1 / 2 := le_antisymm (not_lt.1 hb) (not_lt.1 ha)
    have h2 : (⌊q⌋ : ℚ) ≤ -(1 / 2) := by linarith
    have h3 : ⌊q⌋ < 0 := by
      by_contra h
      push_neg at h
      have : (0 : ℚ) ≤ (⌊q⌋ : ℚ) := by exact_mod_cast h
      linarith
    omega

/-- Claim C4 counterexample: at the non-positive spot price `-7` (step 5),
`get_nearest_strike` does not fail with a sentinel "unknown" value: it
returns the ordinary numeric strike `-5`, a nonzero integer multiple of the
step. -/
theorem C4_counterexample :
    get_nearest_strike (-7) 5 = -5 ∧ (-5 : ℚ) ≠ 0 ∧ ∃ n : ℤ, (-5 : ℚ) = 5 * n := by
  refine ⟨by norm_num [get_nearest_strike, roundHalfEven], by norm_num, ⟨-1, by norm_num⟩⟩

/-- Claim C4 (amended): `get_nearest_strike` never returns a sentinel; for
every non-positive spot price and positive step it returns a non-positive
numeric strike, which the polling loop's `target_strike > 0` guard then
rejects. For positive spot it is a pure deterministic function (immediate
in this model). `nan` spot would raise in Python but never reaches the
function: the loop coerces an invalid spot to `0.0` first. -/
theorem C4_amended (p s : ℚ) (hp : p ≤ 0) (hs : 0 < s) :
    get_nearest_strike p s ≤ 0 := by
  have hdiv : p / s ≤ 0 := div_nonpos_iff.mpr (Or.inr ⟨hp, hs.le⟩)
  have hr : roundHalfEven (p / s) ≤ 0 := roundHalfEven_nonpos hdiv
  have hrq : (roundHalfEven (p / s) : ℚ) ≤ 0 := by exact_mod_cast hr
  calc get_nearest_strike p s = s * (roundHalfEven (p / s) : ℚ) := rfl
    _ ≤ s * 0 := by exact mul_le_mul_of_nonneg_left hrq hs.le
    _ = 0 := by ring

/-- Witness for C4 (amended) at spot `-7`, step `5`. -/
theorem C4_amended_witness :
    (-7 : ℚ) ≤ 0 ∧ (0 : ℚ) < 5 ∧ get_nearest_strike (-7) 5 ≤ 0 :=
  ⟨by norm_num, by norm_num, C4_amended (-7) 5 (by norm_num) (by norm_num)⟩

/-- Claim C8 (confirmed): for positive spot `p` and positive step `s`,
`get_nearest_strike p s` is an integer multiple of `s` and lies within
`s / 2` of `p`. -/
theorem C8_multiple_and_within_half_step (p s : ℚ) (_hp : 0 < p) (hs : 0 < s) :
    (∃ n : ℤ, get_nearest_strike p s = s * n) ∧
      |get_nearest_strike p s - p| ≤ s / 2 := by
  have hsne : s ≠ 0 := ne_of_gt hs
  constructor
  · exact ⟨roundHalfEven (p / s), rfl⟩
  · have key := roundHalfEven_sub_abs (p / s)
    have h1 : get_nearest_strike p s - p = s * ((roundHalfEven (p / s) : ℚ) - p / s) := by
      unfold get_nearest_strike
      field_simp
      ring
    rw [h1, abs_mul, abs_of_pos hs]
    calc s * |(roundHalfEven (p / s) : ℚ) - p / s| ≤ s * (1 / 2) :=
          mul_le_mul_of_nonneg_left key hs.le
      _ = s / 2 := by ring

/-- Witness for C8 at spot `5007`, step `5` (strike `5005`). -/
theorem C8_witness :
    (0 : ℚ) < 5007 ∧ (0 : ℚ) < 5 ∧
      (∃ n : ℤ, get_nearest_strike 5007 5 = 5 * n) ∧
      |get_nearest_strike 5007 5 - 5007| ≤ 5 / 2 := by
  have h := C8_multiple_and_within_half_step 5007 5 (by norm_num) (by norm_num)
  exact ⟨by norm_num, by norm_num, h.1, h.2⟩

/-- Claim C9 (confirmed): strike selection is idempotent — feeding the
selected strike back in as the spot price returns the same strike. (In the
exact rational model every output is exactly representable, so the claim's
representability proviso is automatically met.) -/
theorem C9_idempotent (p s : ℚ) (_hp : 0 < p) (hs : 0 < s) :
    get_nearest_strike (get_nearest_strike p s) s = get_nearest_strike p s := by
  have hsne : s ≠ 0 := ne_of_gt hs
  unfold get_nearest_strike
  rw [mul_div_cancel_left₀ _ hsne, roundHalfEven_intCast]

/-- Witness for C9 at spot `5007`, step `5`. -/
theorem C9_witness :
    (0 : ℚ) < 5007 ∧ (0 : ℚ) < 5 ∧
      get_nearest_strike (get_nearest_strike 5007 5) 5 = get_nearest_strike 5007 5 :=
  ⟨by norm_num, by norm_num, C9_idempotent 5007 5 (by norm_num) (by norm_num)⟩

/-- Claim C10 (confirmed): at an exact midpoint `s * k + s / 2` between the
adjacent strike multiples `s * k` and `s * (k + 1)`, `get_nearest_strike`
resolves the tie to the even quotient — `s * k` when `k` is even, else
`s * (k + 1)` — i.e. Python's round-half-to-even. -/
theorem C10_tie_half_to_even (s : ℚ) (k : ℤ) (hs : 0 < s) :
    get_nearest_strike (s * k + s / 2) s =
      if k % 2 = 0 then s * k else s * (k + 1) := by
  have hsne : s ≠ 0 := ne_of_gt hs
  have harg : (s * k + s / 2) / s = (k : ℚ) + 1 / 2 := by
    field_simp
    ring
  have hfl : ⌊(k : ℚ) + 1 / 2⌋ = k := by
    rw [Int.floor_int_add]
    norm_num
  unfold get_nearest_strike roundHalfEven
  rw [harg, hfl]
  have hc1 : ¬((k : ℚ) + 1 / 2 - k < 1 / 2) := by norm_num
  have hc2 : ¬((1 : ℚ) / 2 < (k : ℚ) + 1 / 2 - k) := by norm_num
  rw [if_neg hc1, if_neg hc2]
  by_cases hk : k % 2 = 0
  · rw [if_pos hk, if_pos hk]
  · rw [if_neg hk, if_neg hk]
    push_cast
    ring

/-- Witness for C10: with step 5, spot `5002.5` yields strike `5000` and
spot `5007.5` yields strike `5010`. -/
theorem C10_witness :
    (0 : ℚ) < 5 ∧ get_nearest_strike (10005 / 2) 5 = 5000 ∧
      get_nearest_strike (10015 / 2) 5 = 5010 := by
  have h1 := C10_tie_half_to_even 5 1000 (by norm_num)
  have h2 := C10_tie_half_to_even 5 1001 (by norm_num)
  have e1 : (5 : ℚ) * (1000 : ℤ) + 5 / 2 = 10005 / 2 := by norm_num
  have e2 : (5 : ℚ) * (1001 : ℤ) + 5 / 2 = 10015 / 2 := by norm_num
  rw [e1] at h1
  rw [e2] at h2
  refine ⟨by norm_num, ?_, ?_⟩
  · rw [h1]
    norm_num
  · rw [h2]
    norm_num

theorem priceOr0_of_invalid {v : Option PyF} (h : is_valid_price v = false) :
    priceOr0 v = 0 := by
  cases v with
  | none => rfl
  | some f =>
    cases f with
    | nan => rfl
    | num q =>
      simp only [is_valid_price, decide_eq_false_iff_not, not_lt] at h
      simp [priceOr0, not_lt.2 h]

theorem priceOr0_of_valid {v : Option PyF} {q : ℚ} (hv : v = some (PyF.num q))
    (hq : 0 < q) : priceOr0 v = q := by
  subst hv
  simp [priceOr0, hq]


theorem mkStraddle_expiry (e : String) (d : TMEntry) : (mkStraddle e d).expiry = e := rfl

theorem buildStraddles_mem {tmap : List (String × TMEntry)}
    {E : List (String × String)} {r : StraddleRecord} (h : r ∈ buildStraddles tmap E) :
    r.expiry ∈ E.map Prod.fst ∧ (lookupMap tmap r.expiry).isSome := by
  induction E with
  | nil => simp [buildStraddles] at h
  | cons et rest ih =>
    obtain ⟨e, tc⟩ := et
    simp only [buildStraddles] at h
    cases hl : lookupMap tmap e with
    | none =>
      rw [hl] at h
      obtain ⟨h1, h2⟩ := ih h
      exact ⟨by simp [h1], h2⟩
    | some d =>
      rw [hl] at h
      rcases List.mem_cons.1 h with h | h
      · subst h
        rw [mkStraddle_expiry]
        exact ⟨by simp, by simp [hl]⟩
      · obtain ⟨h1, h2⟩ := ih h
        exact ⟨by simp [h1], h2⟩

theorem buildStraddles_countP_of_not_mem {tmap : List (String × TMEntry)}
    {E : List (String × String)} {e : String} (he : e ∉ E.map Prod.fst) :
    (buildStraddles tmap E).countP (fun r => decide (r.expiry = e)) = 0 := by
  rw [List.countP_eq_zero]
  intro r hr
  have := (buildStraddles_mem hr).1
  simp only [decide_eq_true_eq]
  intro hc
  exact he (hc ▸ this)

theorem buildStraddles_countP {tmap : List (String × TMEntry)}
    {E : List (String × String)} {e : String}
    (hnd : (E.map Prod.fst).Nodup) (he : e ∈ E.map Prod.fst) :
    (buildStraddles tmap E).countP (fun r => decide (r.expiry = e)) =
      if (lookupMap tmap e).isSome then 1 else 0 := by
  induction E with
  | nil => simp at he
  | cons et rest ih =>
    obtain ⟨e0, tc0⟩ := et
    simp only [List.map_cons, List.nodup_cons] at hnd
    obtain ⟨h0, hrest⟩ := hnd
    simp only [List.map_cons, List.mem_cons] at he
    rcases he with he | he
    · subst he
      simp only [buildStraddles]
      cases hl : lookupMap tmap e with
      | none =>
        rw [buildStraddles_countP_of_not_mem h0]
        rfl
      | some d =>
        rw [List.countP_cons_of_pos _ _ (by simp [mkStraddle_expiry]),
          buildStraddles_countP_of_not_mem h0]
        rfl
    · have hne : e ≠ e0 := fun hc => h0 (hc ▸ he)
      simp only [buildStraddles]
      cases hl : lookupMap tmap e0 with
      | none => exact ih hrest he
      | some d =>
        rw [List.countP_cons_of_neg _ _
            (by simp only [mkStraddle_expiry, decide_eq_true_eq]; exact fun h => hne h.symm),
          ih hrest he]

theorem mkStraddle_iv (e : String) (d : TMEntry) :
    (mkStraddle e d).iv =
      if (get_greeks d.call.state).1.gt0 && (get_greeks d.put.state).1.gt0
      then ((get_greeks d.call.state).1.add (get_greeks d.put.state).1).half
      else if (get_greeks d.call.state).1.truthy then (get_greeks d.call.state).1
      else (get_greeks d.put.state).1 := rfl

theorem mkStraddle_gamma (e : String) (d : TMEntry) :
    (mkStraddle e d).gamma =
      (get_greeks d.call.state).2.1.add (get_greeks d.put.state).2.1 := rfl

theorem mkStraddle_theta (e : String) (d : TMEntry) :
    (mkStraddle e d).theta =
      (get_greeks d.call.state).2.2.add (get_greeks d.put.state).2.2 := rfl

theorem mkStraddle_cost (e : String) (d : TMEntry) :
    (mkStraddle e d).straddle_cost =
      (if 0 < priceOr0 d.call.state.bid ∧ 0 < priceOr0 d.call.state.ask
       then (priceOr0 d.call.state.bid + priceOr0 d.call.state.ask) / 2 else 0) +
      (if 0 < priceOr0 d.put.state.bid ∧ 0 < priceOr0 d.put.state.ask
       then (priceOr0 d.put.state.bid + priceOr0 d.put.state.ask) / 2 else 0) := rfl

/-- Claim C5 counterexample: with call implied vol `-1` (truthy, not
positive) and put implied vol `1` (the only positive leg), the claim says
the straddle IV is the put's `1`; the code's `c_iv or p_iv` instead returns
the call's `-1`. -/
theorem C5_counterexample :
    (get_greeks dIvCex.call.state).1.gt0 = false ∧
      (get_greeks dIvCex.put.state).1 = PyF.num 1 ∧
      PyF.gt0 (PyF.num 1) = true ∧
      (mkStraddle "20260116" dIvCex).iv = PyF.num (-1) ∧
      PyF.num (-1) ≠ PyF.num 1 := by
  refine ⟨?_, rfl, ?_, ?_, ?_⟩
  · norm_num [get_greeks, dIvCex, PyF.gt0]
  · norm_num [PyF.gt0]
  · rw [mkStraddle_iv]
    norm_num [get_greeks, dIvCex, PyF.gt0, PyF.truthy]
  · intro h
    have : (-1 : ℚ) = 1 := by injection h
    norm_num at this

/-- Claim C5 (amended): restricted to non-negative leg IVs (the meaningful
domain for implied volatility) the IV combination rule holds: both legs
positive → arithmetic mean; exactly one positive → that leg's IV; neither →
`0.0`. Gamma and theta are plain sums of the legs' numeric values, never
averaged, and a missing `modelGreeks` contributes `(0, 0, 0)`. For a
negative IV on a leg the code instead returns the call leg's IV whenever it
is nonzero (see the counterexample). -/
theorem C5_amended :
    (∀ t : TickerState, t.modelGreeks = Option.none →
        get_greeks t = (PyF.num 0, PyF.num 0, PyF.num 0)) ∧
    (∀ (e : String) (d : TMEntry) (c p : ℚ),
        (get_greeks d.call.state).1 = PyF.num c →
        (get_greeks d.put.state).1 = PyF.num p →
        ((0 < c → 0 < p → (mkStraddle e d).iv = PyF.num ((c + p) / 2)) ∧
          (0 < c → p = 0 → (mkStraddle e d).iv = PyF.num c) ∧
          (c = 0 → 0 < p → (mkStraddle e d).iv = PyF.num p) ∧
          (c = 0 → p = 0 → (mkStraddle e d).iv = PyF.num 0))) ∧
    (∀ (e : String) (d : TMEntry) (gc gp : ℚ),
        (get_greeks d.call.state).2.1 = PyF.num gc →
        (get_greeks d.put.state).2.1 = PyF.num gp →
        (mkStraddle e d).gamma = PyF.num (gc + gp)) ∧
    (∀ (e : String) (d : TMEntry) (tc tp : ℚ),
        (get_greeks d.call.state).2.2 = PyF.num tc →
        (get_greeks d.put.state).2.2 = PyF.num tp →
        (mkStraddle e d).theta = PyF.num (tc + tp)) := by
  refine ⟨?_, ?_, ?_, ?_⟩
  · intro t ht
    simp [get_greeks, ht]
  · intro e d c p hc hp
    rw [mkStraddle_iv, hc, hp]
    refine ⟨?_, ?_, ?_, ?_⟩
    · intro h1 h2
      simp [PyF.gt0, PyF.add, PyF.half, h1, h2]
    · intro h1 h2
      subst h2
      simp [PyF.gt0, PyF.truthy, h1, ne_of_gt h1]
    · intro h1 h2
      subst h1
      simp [PyF.gt0, PyF.truthy, h2, not_lt.2 le_rfl]
    · intro h1 h2
      subst h1
      subst h2
      simp [PyF.gt0, PyF.truthy]
  · intro e d gc gp h1 h2
    rw [mkStraddle_gamma, h1, h2]
    rfl
  · intro e d tc tp h1 h2
    rw [mkStraddle_theta, h1, h2]
    rfl

/-- Witness for C5 (amended): call IV `0.2`, put IV `0.18` → straddle IV
`0.19`; gamma `0.001 + 0.0012 = 0.0022`; theta `-2 + -3 = -5`. -/
theorem C5_amended_witness :
    (mkStraddle "20260116" dGreeks).iv = PyF.num (19 / 100) ∧
      (mkStraddle "20260116" dGreeks).gamma = PyF.num (11 / 5000) ∧
      (mkStraddle "20260116" dGreeks).theta = PyF.num (-5) := by
  have h := C5_amended
  refine ⟨?_, ?_, ?_⟩
  · have := (h.2.1 "20260116" dGreeks (1 / 5) (9 / 50) rfl rfl).1
      (by norm_num) (by norm_num)
    rw [this]
    norm_num
  · have := h.2.2.1 "20260116" dGreeks (1 / 1000) (3 / 2500) rfl rfl
    rw [this]
    norm_num
  · have := h.2.2.2 "20260116" dGreeks (-2) (-3) rfl rfl
    rw [this]
    norm_num

/-- Claim C6 (confirmed): the aggregator emits exactly one record per
tracked expiry currently present in `tickers_map` (given distinct tracked
expiries) and no record for an expiry without handles; a record for an
expiry whose four bid/ask values are all invalid has `straddle_cost = 0`
and all bid/ask fields `0` (the invalid-price coercion maps `None`, `nan`
and non-positive values to `0.0`); a leg's mid contributes `(bid + ask) / 2`
exactly when both sides are valid positive numbers, else `0`. -/
theorem C6_aggregate :
    (∀ (tmap : List (String × TMEntry)) (E : List (String × String)) (e : String),
        (E.map Prod.fst).Nodup → e ∈ E.map Prod.fst →
        (buildStraddles tmap E).countP (fun r => decide (r.expiry = e)) =
          if (lookupMap tmap e).isSome then 1 else 0) ∧
    (∀ (tmap : List (String × TMEntry)) (E : List (String × String))
        (r : StraddleRecord), r ∈ buildStraddles tmap E →
        (lookupMap tmap r.expiry).isSome = true) ∧
    (∀ (e : String) (d : TMEntry),
        is_valid_price d.call.state.bid = false →
        is_valid_price d.call.state.ask = false →
        is_valid_price d.put.state.bid = false →
        is_valid_price d.put.state.ask = false →
        (mkStraddle e d).straddle_cost = 0 ∧ (mkStraddle e d).call_bid = 0 ∧
          (mkStraddle e d).call_ask = 0 ∧ (mkStraddle e d).put_bid = 0 ∧
          (mkStraddle e d).put_ask = 0) ∧
    (∀ (e : String) (d : TMEntry) (b a : ℚ),
        d.call.state.bid = some (PyF.num b) → 0 < b →
        d.call.state.ask = some (PyF.num a) → 0 < a →
        is_valid_price d.put.state.bid = false →
        (mkStraddle e d).straddle_cost = (b + a) / 2 ∧
          (mkStraddle e d).call_bid = b ∧ (mkStraddle e d).call_ask = a) ∧
    (∀ (e : String) (d : TMEntry),
        is_valid_price d.call.state.ask = false →
        is_valid_price d.put.state.bid = false →
        (mkStraddle e d).straddle_cost = 0) := by
  refine ⟨?_, ?_, ?_, ?_, ?_⟩
  · intro tmap E e hnd he
    exact buildStraddles_countP hnd he
  · intro tmap E r hr
    exact (buildStraddles_mem hr).2
  · intro e d h1 h2 h3 h4
    have e1 := priceOr0_of_invalid h1
    have e2 := priceOr0_of_invalid h2
    have e3 := priceOr0_of_invalid h3
    have e4 := priceOr0_of_invalid h4
    refine ⟨?_, e1, e2, e3, e4⟩
    rw [mkStraddle_cost, e1, e2, e3, e4]
    norm_num
  · intro e d b a hb hbpos ha hapos hpb
    have e1 := priceOr0_of_valid hb hbpos
    have e2 := priceOr0_of_valid ha hapos
    have e3 := priceOr0_of_invalid hpb
    refine ⟨?_, e1, e2⟩
    rw [mkStraddle_cost, e1, e2, e3]
    rw [if_pos ⟨hbpos, hapos⟩, if_neg (by simp)]
    ring
  · intro e d h1 h2
    have e1 := priceOr0_of_invalid h1
    have e2 := priceOr0_of_invalid h2
    rw [mkStraddle_cost, e1, e2]
    rw [if_neg (by simp), if_neg (by simp)]
    norm_num

/-- Witness for C6: a one-expiry map emits exactly one record; the quoted
call leg (bid 2, ask 3) with an unquoted put yields straddle cost `5/2`. -/
theorem C6_witness :
    (buildStraddles [("20260116", dCallQuoted)] [("20260116", "SPXW")]).countP
        (fun r => decide (r.expiry = "20260116")) = 1 ∧
      (mkStraddle "20260116" dCallQuoted).straddle_cost = 5 / 2 := by
  have h := C6_aggregate
  constructor
  · have := h.1 [("20260116", dCallQuoted)] [("20260116", "SPXW")] "20260116"
      (by simp) (by simp)
    rw [this]
    rfl
  · have := h.2.2.2.1 "20260116" dCallQuoted 2 3 rfl (by norm_num) rfl (by norm_num) rfl
    rw [this.1]
    norm_num

theorem stepTarget_inpJump : stepTarget inpJump = 5005 := by
  have hspot : stepSpot inpJump = 5007 := by
    norm_num [stepSpot, inpJump, is_valid_price, priceOr0]
  rw [stepTarget, hspot]
  norm_num [get_nearest_strike, roundHalfEven]

theorem stepTarget_inpJumpQF : stepTarget inpJumpQF = 5005 := by
  have hspot : stepSpot inpJumpQF = 5007 := by
    norm_num [stepSpot, inpJumpQF, is_valid_price, priceOr0]
  rw [stepTarget, hspot]
  norm_num [get_nearest_strike, roundHalfEven]

theorem step_no_change (E : List (String × String)) (s : LoopState)
    (inp : LoopInput) (hc : inp.connected = true) (he : inp.raiseError = false)
    (h : ¬(stepTarget inp ≠ s.current_atm_strike ∧ 0 < stepTarget inp)) :
    step E s inp = StepResult.next s
      [Action.emitData ⟨stepSpot inp, s.current_atm_strike, buildStraddles s.tickers_map E⟩,
        Action.sleep 5] := by
  simp [step, hc, he, h]

theorem step_reconcile_ok (E : List (String × String)) (s : LoopState)
    (inp : LoopInput) (hc : inp.connected = true) (he : inp.raiseError = false)
    (h1 : stepTarget inp ≠ s.current_atm_strike) (h2 : 0 < stepTarget inp)
    (hq : inp.qualifyOk = true) :
    step E s inp = StepResult.next
      ⟨stepTarget inp,
        (subscribeLoop inp.mktData 0 [] [] [] (buildContracts (stepTarget inp) E)).2.1,
        (subscribeLoop inp.mktData 0 [] [] [] (buildContracts (stepTarget inp) E)).1⟩
      (s.active_tickers_list.map (fun t => Action.cancelMktData t.contract) ++
        [Action.qualifyContracts (buildContracts (stepTarget inp) E)] ++
        (subscribeLoop inp.mktData 0 [] [] [] (buildContracts (stepTarget inp) E)).2.2 ++
        [Action.sleep 2,
          Action.emitData ⟨stepSpot inp, stepTarget inp,
            buildStraddles
              (subscribeLoop inp.mktData 0 [] [] [] (buildContracts (stepTarget inp) E)).2.1 E⟩,
          Action.sleep 5]) := by
  simp [step, hc, he, hq, h1, h2]

theorem step_reconcile_fail (E : List (String × String)) (s : LoopState)
    (inp : LoopInput) (hc : inp.connected = true) (he : inp.raiseError = false)
    (h1 : stepTarget inp ≠ s.current_atm_strike) (h2 : 0 < stepTarget inp)
    (hq : inp.qualifyOk = false) :
    step E s inp = StepResult.next ⟨s.current_atm_strike, [], []⟩
      (s.active_tickers_list.map (fun t => Action.cancelMktData t.contract) ++
        [Action.qualifyContracts (buildContracts (stepTarget inp) E), Action.sleep 5]) := by
  simp [step, hc, he, hq, h1, h2]

theorem step_unexpected_error (E : List (String × String)) (s : LoopState)
    (inp : LoopInput) (hc : inp.connected = true) (he : inp.raiseError = true) :
    step E s inp = StepResult.halt true [] := by
  simp [step, hc, he]

theorem buildContracts_length (k : ℚ) (E : List (String × String)) :
    (buildContracts k E).length = 2 * E.length := by
  induction E with
  | nil => rfl
  | cons et rest ih =>
    obtain ⟨e, tc⟩ := et
    simp only [buildContracts, List.length_cons, ih, List.length_cons]
    ring

theorem buildContracts_strike {k : ℚ} {E : List (String × String)} {c : Contract}
    (h : c ∈ buildContracts k E) : c.strike = k := by
  induction E with
  | nil => simp [buildContracts] at h
  | cons et rest ih =>
    obtain ⟨e, tc⟩ := et
    simp only [buildContracts, List.mem_cons] at h
    rcases h with h | h | h
    · subst h
      rfl
    · subst h
      rfl
    · exact ih h

theorem subscribeLoop_map_contract (mkt : Contract → TickerState) (k : ℚ)
    (E : List (String × String)) :
    ∀ (idx : Nat) (atl : List Ticker) (tmap : List (String × TMEntry))
      (acts : List Action),
      ((subscribeLoop mkt idx atl tmap acts (buildContracts k E)).1).map Ticker.contract =
        atl.map Ticker.contract ++ buildContracts k E := by
  induction E with
  | nil =>
    intro idx atl tmap acts
    simp [buildContracts, subscribeLoop]
  | cons et rest ih =>
    obtain ⟨e, tc⟩ := et
    intro idx atl tmap acts
    simp only [buildContracts, subscribeLoop]
    rw [ih]
    simp

theorem subscribeLoop_once (mkt : Contract → TickerState) (k : ℚ)
    (E : List (String × String)) :
    ((subscribeLoop mkt 0 [] [] [] (buildContracts k E)).1).map Ticker.contract =
      buildContracts k E := by
  simpa using subscribeLoop_map_contract mkt k E 0 [] [] []

theorem subscribeLoop_once_length (mkt : Contract → TickerState) (k : ℚ)
    (E : List (String × String)) :
    ((subscribeLoop mkt 0 [] [] [] (buildContracts k E)).1).length = 2 * E.length := by
  rw [← List.length_map _ Ticker.contract, subscribeLoop_once, buildContracts_length]

theorem step_next_cases {E : List (String × String)} {s : LoopState}
    {inp : LoopInput} {s' : LoopState} {tr : List Action}
    (h : step E s inp = StepResult.next s' tr) :
    inp.connected = true ∧ inp.raiseError = false ∧
      ((stepTarget inp ≠ s.current_atm_strike ∧ 0 < stepTarget inp ∧
          inp.qualifyOk = true ∧
          s' = ⟨stepTarget inp,
            (subscribeLoop inp.mktData 0 [] [] [] (buildContracts (stepTarget inp) E)).2.1,
            (subscribeLoop inp.mktData 0 [] [] [] (buildContracts (stepTarget inp) E)).1⟩) ∨
        (stepTarget inp ≠ s.current_atm_strike ∧ 0 < stepTarget inp ∧
          inp.qualifyOk = false ∧ s' = ⟨s.current_atm_strike, [], []⟩) ∨
        (¬(stepTarget inp ≠ s.current_atm_strike ∧ 0 < stepTarget inp) ∧ s' = s)) := by
  by_cases hc : inp.connected
  · by_cases he : inp.raiseError
    · rw [step_unexpected_error E s inp hc he] at h
      exact absurd h (by simp)
    · have he' : inp.raiseError = false := by simpa using he
      refine ⟨hc, he', ?_⟩
      by_cases hb : stepTarget inp ≠ s.current_atm_strike ∧ 0 < stepTarget inp
      · by_cases hq : inp.qualifyOk
        · rw [step_reconcile_ok E s inp hc he' hb.1 hb.2 hq] at h
          injection h with h1 h2
          exact Or.inl ⟨hb.1, hb.2, hq, h1.symm⟩
        · have hq' : inp.qualifyOk = false := by simpa using hq
          rw [step_reconcile_fail E s inp hc he' hb.1 hb.2 hq'] at h
          injection h with h1 h2
          exact Or.inr (Or.inl ⟨hb.1, hb.2, hq', h1.symm⟩)
      · rw [step_no_change E s inp hc he' hb] at h
        injection h with h1 h2
        exact Or.inr (Or.inr ⟨hb, h1.symm⟩)
  · have hc' : inp.connected = false := by simpa using hc
    have : step E s inp = StepResult.halt false [] := by simp [step, hc']
    rw [this] at h
    exact absurd h (by simp)

/-- Claim C1 counterexample: spot jumps to 5007 from active strike 0 with
qualification succeeding — a strike-change iteration — yet the iteration's
trace DOES publish a snapshot (`publishes = true`): the code falls through
to aggregation after the settle delay instead of skipping it. -/
theorem C1_counterexample :
    stepTarget inpJump ≠ initState.current_atm_strike ∧
      0 < stepTarget inpJump ∧ inpJump.qualifyOk = true ∧
      (step E1 initState inpJump).publishes = true := by
  have h1 : stepTarget inpJump ≠ initState.current_atm_strike := by
    rw [stepTarget_inpJump]
    norm_num [initState]
  have h2 : 0 < stepTarget inpJump := by
    rw [stepTarget_inpJump]
    norm_num
  refine ⟨h1, h2, rfl, ?_⟩
  rw [StepResult.publishes, step_reconcile_ok E1 initState inpJump rfl rfl h1 h2 rfl]
  simp [StepResult.trace, Action.isEmitData]

/-- Claim C1 (amended): on a strike-change iteration the loop runs the
reconcile; if qualification succeeds it updates the active strike, applies
the 2-second settle delay and then still aggregates and publishes a
snapshot in the same iteration; aggregation is skipped (nothing published,
strike unchanged) only when qualification fails. -/
theorem C1_amended :
    (∀ (E : List (String × String)) (s : LoopState) (inp : LoopInput),
        inp.connected = true → inp.raiseError = false →
        stepTarget inp ≠ s.current_atm_strike → 0 < stepTarget inp →
        inp.qualifyOk = true →
        ∃ s' tr, step E s inp = StepResult.next s' tr ∧
          s'.current_atm_strike = stepTarget inp ∧
          Action.sleep 2 ∈ tr ∧
          Action.qualifyContracts (buildContracts (stepTarget inp) E) ∈ tr ∧
          ∃ snap, Action.emitData snap ∈ tr) ∧
    (∀ (E : List (String × String)) (s : LoopState) (inp : LoopInput),
        inp.connected = true → inp.raiseError = false →
        stepTarget inp ≠ s.current_atm_strike → 0 < stepTarget inp →
        inp.qualifyOk = false →
        ∃ tr, step E s inp = StepResult.next ⟨s.current_atm_strike, [], []⟩ tr ∧
          ∀ snap, Action.emitData snap ∉ tr) := by
  constructor
  · intro E s inp hc he h1 h2 hq
    refine ⟨_, _, step_reconcile_ok E s inp hc he h1 h2 hq, rfl, ?_, ?_, ?_⟩
    · simp
    · simp
    · exact ⟨⟨stepSpot inp, stepTarget inp,
        buildStraddles
          (subscribeLoop inp.mktData 0 [] [] [] (buildContracts (stepTarget inp) E)).2.1 E⟩,
        by simp⟩
  · intro E s inp hc he h1 h2 hq
    refine ⟨_, step_reconcile_fail E s inp hc he h1 h2 hq, ?_⟩
    intro snap hmem
    rw [List.mem_append] at hmem
    rcases hmem with h | h
    · rcases List.mem_map.1 h with ⟨t, _, ht⟩
      simp at ht
    · simp at h

/-- Witness for C1 (amended), first part, at the 5007 jump input. -/
theorem C1_amended_witness :
    ∃ s' tr, step E1 initState inpJump = StepResult.next s' tr ∧
      s'.current_atm_strike = stepTarget inpJump ∧
      Action.sleep 2 ∈ tr ∧
      Action.qualifyContracts (buildContracts (stepTarget inpJump) E1) ∈ tr ∧
      ∃ snap, Action.emitData snap ∈ tr :=
  C1_amended.1 E1 initState inpJump rfl rfl
    (by rw [stepTarget_inpJump]; norm_num [initState])
    (by rw [stepTarget_inpJump]; norm_num) rfl

/-- Claim C2 (confirmed): the handle set is empty before the first strike is
established; every continuing iteration preserves the `≤ 2 × |expiries|`
bound on live handles; a successful reconcile leaves handles whose
contracts are exactly the call/put pair per tracked expiry at the new
strike — so exactly `2 × |expiries|` of them, all at the new strike and
none at the prior one; and no iteration other than a successful reconcile
can populate an empty handle set. -/
theorem C2_handle_invariant :
    (initState.active_tickers_list = [] ∧ initState.tickers_map = []) ∧
    (∀ (E : List (String × String)) (s : LoopState) (inp : LoopInput)
        (s' : LoopState) (tr : List Action),
        step E s inp = StepResult.next s' tr →
        s.active_tickers_list.length ≤ 2 * E.length →
        s'.active_tickers_list.length ≤ 2 * E.length) ∧
    (∀ (E : List (String × String)) (s : LoopState) (inp : LoopInput),
        inp.connected = true → inp.raiseError = false →
        stepTarget inp ≠ s.current_atm_strike → 0 < stepTarget inp →
        inp.qualifyOk = true →
        ∃ s' tr, step E s inp = StepResult.next s' tr ∧
          s'.active_tickers_list.map Ticker.contract =
            buildContracts (stepTarget inp) E ∧
          s'.active_tickers_list.length = 2 * E.length ∧
          ∀ t ∈ s'.active_tickers_list,
            t.contract.strike = stepTarget inp ∧
              t.contract.strike ≠ s.current_atm_strike) ∧
    (∀ (E : List (String × String)) (s : LoopState) (inp : LoopInput)
        (s' : LoopState) (tr : List Action),
        step E s inp = StepResult.next s' tr →
        ¬(stepTarget inp ≠ s.current_atm_strike ∧ 0 < stepTarget inp ∧
            inp.qualifyOk = true) →
        s.active_tickers_list = [] → s'.active_tickers_list = []) := by
  refine ⟨⟨rfl, rfl⟩, ?_, ?_, ?_⟩
  · intro E s inp s' tr h hle
    obtain ⟨hc, he, hcase⟩ := step_next_cases h
    rcases hcase with ⟨h1, h2, hq, rfl⟩ | ⟨h1, h2, hq, rfl⟩ | ⟨hn, rfl⟩
    · exact le_of_eq (subscribeLoop_once_length inp.mktData (stepTarget inp) E)
    · simp
    · exact hle
  · intro E s inp hc he h1 h2 hq
    refine ⟨_, _, step_reconcile_ok E s inp hc he h1 h2 hq, ?_, ?_, ?_⟩
    · exact subscribeLoop_once inp.mktData (stepTarget inp) E
    · exact subscribeLoop_once_length inp.mktData (stepTarget inp) E
    · intro t ht
      have hmem : t.contract ∈ buildContracts (stepTarget inp) E := by
        rw [← subscribeLoop_once inp.mktData (stepTarget inp) E]
        exact List.mem_map_of_mem Ticker.contract ht
      have hk := buildContracts_strike hmem
      exact ⟨hk, by rw [hk]; exact h1⟩
  · intro E s inp s' tr h hnot hempty
    obtain ⟨hc, he, hcase⟩ := step_next_cases h
    rcases hcase with ⟨h1, h2, hq, rfl⟩ | ⟨h1, h2, hq, rfl⟩ | ⟨hn, rfl⟩
    · exact absurd ⟨h1, h2, hq⟩ hnot
    · rfl
    · exact hempty

/-- Witness for C2 at the 5007 jump: one tracked expiry, two handles at
strike 5005. -/
theorem C2_witness :
    ∃ s' tr, step E1 initState inpJump = StepResult.next s' tr ∧
      s'.active_tickers_list.map Ticker.contract =
        buildContracts (stepTarget inpJump) E1 ∧
      s'.active_tickers_list.length = 2 * E1.length ∧
      ∀ t ∈ s'.active_tickers_list,
        t.contract.strike = stepTarget inpJump ∧
          t.contract.strike ≠ initState.current_atm_strike :=
  C2_handle_invariant.2.2.1 E1 initState inpJump rfl rfl
    (by rw [stepTarget_inpJump]; norm_num [initState])
    (by rw [stepTarget_inpJump]; norm_num) rfl

/-- Claim C3 (confirmed): when batch qualification fails during a
strike-change reconcile the iteration continues the session with the handle
set left empty, the active strike unchanged (still unequal to the
candidate, so strike evaluation retries), and only a 5-second backoff in
its trace — no snapshot; whereas every other error of the taxonomy is
terminal: the four pre-loop failures (unreachable port, connect failure,
spot-data timeout, no expiries) each end the session with an `error`
status, and an unexpected in-loop exception halts the loop with `error`. -/
theorem C3_qualification_failure_recovery :
    (∀ (E : List (String × String)) (s : LoopState) (inp : LoopInput),
        inp.connected = true → inp.raiseError = false →
        stepTarget inp ≠ s.current_atm_strike → 0 < stepTarget inp →
        inp.qualifyOk = false →
        step E s inp = StepResult.next ⟨s.current_atm_strike, [], []⟩
          (s.active_tickers_list.map (fun t => Action.cancelMktData t.contract) ++
            [Action.qualifyContracts (buildContracts (stepTarget inp) E),
              Action.sleep 5])) ∧
    (∀ env : SetupEnv,
        env.portOpen = false ∨ env.connectOk = false ∨ env.spotArrives = false ∨
          env.discovered = [] →
        ∃ msg, collect_market_data_setup env = SetupResult.exitWithError msg) ∧
    (∀ (E : List (String × String)) (s : LoopState) (inp : LoopInput),
        inp.connected = true → inp.raiseError = true →
        step E s inp = StepResult.halt true []) := by
  refine ⟨?_, ?_, ?_⟩
  · intro E s inp hc he h1 h2 hq
    exact step_reconcile_fail E s inp hc he h1 h2 hq
  · intro env h
    by_cases hp : env.portOpen
    · by_cases hco : env.connectOk
      · by_cases hsp : env.spotArrives
        · have hd : env.discovered = [] := by
            rcases h with h | h | h | h
            · exact absurd hp (by simp [h])
            · exact absurd hco (by simp [h])
            · exact absurd hsp (by simp [h])
            · exact h
          exact ⟨"Could not find expirations",
            by simp [collect_market_data_setup, hp, hco, hsp, hd]⟩
        · have hsp' : env.spotArrives = false := by simpa using hsp
          exact ⟨"Timeout waiting for SPX data",
            by simp [collect_market_data_setup, hp, hco, hsp']⟩
      · have hco' : env.connectOk = false := by simpa using hco
        exact ⟨"Connection failed", by simp [collect_market_data_setup, hp, hco']⟩
    · have hp' : env.portOpen = false := by simpa using hp
      exact ⟨"Port 7496 is not accepting connections",
        by simp [collect_market_data_setup, hp']⟩
  · intro E s inp hc he
    exact step_unexpected_error E s inp hc he

/-- Witness for C3 at the 5007 jump with failing qualification. -/
theorem C3_witness :
    step E1 initState inpJumpQF = StepResult.next ⟨initState.current_atm_strike, [], []⟩
      (initState.active_tickers_list.map (fun t => Action.cancelMktData t.contract) ++
        [Action.qualifyContracts (buildContracts (stepTarget inpJumpQF) E1),
          Action.sleep 5]) :=
  C3_qualification_failure_recovery.1 E1 initState inpJumpQF rfl rfl
    (by rw [stepTarget_inpJumpQF]; norm_num [initState])
    (by rw [stepTarget_inpJumpQF]; norm_num) rfl

/-- Claim C7 (confirmed): when the candidate strike equals the active strike
or is invalid (`≤ 0`), the iteration performs no cancellation, qualification
or subscription call, and returns the state unchanged — `tickers_map` and
`active_tickers_list` are identical to the previous tick. -/
theorem C7_no_reconcile_frame :
    ∀ (E : List (String × String)) (s : LoopState) (inp : LoopInput),
      inp.connected = true → inp.raiseError = false →
      (stepTarget inp = s.current_atm_strike ∨ stepTarget inp ≤ 0) →
      ∃ tr, step E s inp = StepResult.next s tr ∧
        tr.all (fun a => !a.isSubscriptionCall) = true := by
  intro E s inp hc he hcond
  have hneg : ¬(stepTarget inp ≠ s.current_atm_strike ∧ 0 < stepTarget inp) := by
    rcases hcond with h | h
    · exact fun hh => hh.1 h
    · exact fun hh => absurd hh.2 (not_lt.2 h)
  exact ⟨_, step_no_change E s inp hc he hneg, rfl⟩

/-- Witness for C7: spot 5007 with the active strike already 5005 — same
rounding bucket, no reconcile, state returned unchanged. -/
theorem C7_witness :
    ∃ tr, step E1 stateAt5005 inpJump = StepResult.next stateAt5005 tr ∧
      tr.all (fun a => !a.isSubscriptionCall) = true :=
  C7_no_reconcile_frame E1 stateAt5005 inpJump rfl rfl
    (Or.inl (by rw [stepTarget_inpJump]; rfl))

end Glantz
